import Mathlib

namespace CausalSCM

/-- Shallow embedding of the slice of the `causallearn.graph.Graph` interface that
`SCM.__init__` consumes: the list of node names (the keys of the dictionary
`{node.get_name(): node_id for node, node_id in g.node_map.items()}`, in insertion
order; dictionary keys are distinct, so the list is assumed duplicate-free where a
claim needs it) together with the black-box d-connection predicate
`is_dconnected_to`, queried here by node name — faithful because `get_node` resolves
each name to that graph's own node handle. -/
structure Graph where
  nodes : List String
  dconn : String → String → List String → Bool

/-- Embedding of `Graph.get_num_nodes` (node names are distinct, so the node count
equals the length of the name list). -/
def Graph.get_num_nodes (g : Graph) : ℕ := g.nodes.length

/-- The ordered pairs `(x, y)` visited by the two inner `for` loops of
`SCM.__init__` for a fixed conditioning set `S`: `x` runs over the node names not
in `S` (the `continue` on `x_name in S_names`), and `y` over the node names not in
`S` and different from `x` (the two `continue`s of the innermost loop). -/
def pairsOutside (names S : List String) : List (String × String) :=
  (names.filter (fun x => decide (¬ x ∈ S))).flatMap (fun x =>
    ((names.filter (fun y => decide (¬ y ∈ S))).filter (fun y => decide (¬ y = x))).map
      (fun y => (x, y)))

/-- The triples `(S, x, y)` examined by `SCM.__init__` at subset size `k`:
`S` runs over `itertools.combinations(truth_node_map.items(), k)` (the length-`k`
subsequences of the name list, embedded as `List.sublistsLen`), and `(x, y)` over
the ordered pairs outside `S`. -/
def triplesK (names : List String) (k : ℕ) : List (List String × String × String) :=
  (names.sublistsLen k).flatMap (fun S => (pairsOutside names S).map (fun p => (S, p)))

/-- The five per-size accumulators of the loop body of `SCM.__init__`:
`SM_k`, `CM_k`, `SCM_k` (floats, embedded as exact rationals) and the two
denominators `n_C_k_sep`, `n_C_k_con`. -/
structure KAcc where
  sm : ℚ
  cm : ℚ
  scm : ℚ
  nCon : ℕ
  nSep : ℕ
deriving DecidableEq

/-- One iteration of the innermost loop body of `SCM.__init__`: query both graphs,
add `1` to `SCM_k` on disagreement, and either bump `CM_k`/`n_C_k_con` (truth
d-connected) or `SM_k`/`n_C_k_sep` (truth d-separated). -/
def stepTriple (truth est : Graph) (S : List String) (x y : String) (a : KAcc) : KAcc :=
  let t := truth.dconn x y S
  let e := est.dconn x y S
  { sm := a.sm + (if t then 0 else if e then 1 else 0)
    cm := a.cm + (if t then (if e then 0 else 1) else 0)
    scm := a.scm + (if t != e then 1 else 0)
    nCon := a.nCon + (if t then 1 else 0)
    nSep := a.nSep + (if t then 0 else 1) }

/-- The complete size-`k` pass of `SCM.__init__`, folding the loop body over every
triple `(S, x, y)` in enumeration order, starting from zeroed accumulators. -/
def kAcc (truth est : Graph) (names : List String) (k : ℕ) : KAcc :=
  (triplesK names k).foldl (fun a t => stepTriple truth est t.1 t.2.1 t.2.2 a) ⟨0, 0, 0, 0, 0⟩

/-- The two failure modes of `SCM.__init__`: the `assert` on differing node-name
sets (`AssertionError`, called `GraphMismatch` by the spec) and Python's
`ZeroDivisionError` from a float divided by zero. -/
inductive SCMError where
  | graphMismatch
  | zeroDivision
deriving DecidableEq

/-- The state of a constructed `SCM` object: its three private fields
`self.__SM`, `self.__CM`, `self.__SCM` (floats, embedded as exact rationals). -/
structure SCM where
  __SM : ℚ
  __CM : ℚ
  __SCM : ℚ
deriving DecidableEq

/-- Embedding of the `for k in range(1, N-1)` loop of `SCM.__init__`, threading the
three running sums.  After the size-`k` pass, the code computes
`SM_k / n_C_k_sep`, `SM_k / n_C_k_con` (note: `SM_k`, not `CM_k` — reproduced
verbatim from the source) and `SCM_k / (n_C_k_sep + n_C_k_con)`; a zero
denominator raises `ZeroDivisionError`. -/
def loopKs (truth est : Graph) (names : List String) :
    SCM → List ℕ → Except SCMError SCM
  | acc, [] => .ok acc
  | acc, k :: ks =>
    let a := kAcc truth est names k
    if a.nSep = 0 ∨ a.nCon = 0 then .error .zeroDivision
    else
      loopKs truth est names
        ⟨acc.__SM + a.sm / (a.nSep : ℚ),
         acc.__CM + a.sm / (a.nCon : ℚ),
         acc.__SCM + a.scm / ((a.nSep : ℚ) + (a.nCon : ℚ))⟩ ks

/-- Embedding of the `assert set(truth_node_map.keys()) == set(est_node_map.keys())`
precondition check of `SCM.__init__`. -/
def sameNameSet (t e : List String) : Bool :=
  t.all (fun n => decide (n ∈ e)) && e.all (fun n => decide (n ∈ t))

/-- Embedding of `SCM.__init__(truth, est)`: check the name sets, run the per-size
loop for `k = 1 .. N-2` over the first graph's name list, then divide each running
sum by `N - 1` (raising `ZeroDivisionError` when `N = 1`, exactly when Python's
`self.__SM / (N-1)` divides by zero). -/
def SCM.init (truth est : Graph) : Except SCMError SCM :=
  if sameNameSet truth.nodes est.nodes then
    match loopKs truth est truth.nodes ⟨0, 0, 0⟩
        (List.range' 1 (truth.get_num_nodes - 2)) with
    | .error e => .error e
    | .ok acc =>
      if truth.get_num_nodes = 1 then .error .zeroDivision
      else
        .ok ⟨acc.__SM / ((truth.get_num_nodes : ℚ) - 1),
             acc.__CM / ((truth.get_num_nodes : ℚ) - 1),
             acc.__SCM / ((truth.get_num_nodes : ℚ) - 1)⟩
  else .error .graphMismatch

/-- Embedding of the accessor `SCM.get_s_metric`. -/
def SCM.get_s_metric (m : SCM) : ℚ := m.__SM

/-- Embedding of the accessor `SCM.get_c_metric`. -/
def SCM.get_c_metric (m : SCM) : ℚ := m.__CM

/-- Embedding of the accessor `SCM.get_sc_metric`. -/
def SCM.get_sc_metric (m : SCM) : ℚ := m.__SCM

/-- Number of triples `(S, x, y)` at size `k` satisfying a predicate. -/
def countTriples (names : List String) (k : ℕ)
    (p : List String → String → String → Bool) : ℕ :=
  (triplesK names k).countP (fun t => p t.1 t.2.1 t.2.2)

/-- Size-`k` connected-triple count: triples the truth graph reports d-connected. -/
def conCount (truth : Graph) (names : List String) (k : ℕ) : ℕ :=
  countTriples names k (fun S x y => truth.dconn x y S)

/-- Size-`k` separated-triple count: triples the truth graph reports d-separated. -/
def sepCount (truth : Graph) (names : List String) (k : ℕ) : ℕ :=
  countTriples names k (fun S x y => !truth.dconn x y S)

/-- Size-`k` spurious-connection count: truth reports d-separated, est d-connected
(the s-metric numerator). -/
def spuriousCount (truth est : Graph) (names : List String) (k : ℕ) : ℕ :=
  countTriples names k (fun S x y => !truth.dconn x y S && est.dconn x y S)

/-- Size-`k` missed-connection count: truth reports d-connected, est d-separated
(the intended c-metric numerator). -/
def missedCount (truth est : Graph) (names : List String) (k : ℕ) : ℕ :=
  countTriples names k (fun S x y => truth.dconn x y S && !est.dconn x y S)

/-- Size-`k` disagreement count: the two graphs report different answers
(the sc-metric numerator). -/
def disagreeCount (truth est : Graph) (names : List String) (k : ℕ) : ℕ :=
  countTriples names k (fun S x y => truth.dconn x y S != est.dconn x y S)

/-- The s-metric as the specification words it: the sum over subset sizes
`k = 1 .. N-2` of (size-`k` spurious-connection count / size-`k` separated-triple
count), divided by `N - 1`. -/
def sMetricSpec (truth est : Graph) : ℚ :=
  (((List.range' 1 (truth.get_num_nodes - 2)).map (fun k =>
      (spuriousCount truth est truth.nodes k : ℚ) /
        (sepCount truth truth.nodes k : ℚ))).sum) /
    ((truth.get_num_nodes : ℚ) - 1)

/-- The c-metric as the specification words it: the sum over subset sizes
`k = 1 .. N-2` of (size-`k` missed-connection count / size-`k` connected-triple
count), divided by `N - 1`. -/
def cMetricSpec (truth est : Graph) : ℚ :=
  (((List.range' 1 (truth.get_num_nodes - 2)).map (fun k =>
      (missedCount truth est truth.nodes k : ℚ) /
        (conCount truth truth.nodes k : ℚ))).sum) /
    ((truth.get_num_nodes : ℚ) - 1)

/-- The sc-metric as the specification words it: the sum over subset sizes
`k = 1 .. N-2` of (size-`k` disagreement count / size-`k` triple count), divided
by `N - 1`. -/
def scMetricSpec (truth est : Graph) : ℚ :=
  (((List.range' 1 (truth.get_num_nodes - 2)).map (fun k =>
      (disagreeCount truth est truth.nodes k : ℚ) /
        ((sepCount truth truth.nodes k : ℚ) + (conCount truth truth.nodes k : ℚ)))).sum) /
    ((truth.get_num_nodes : ℚ) - 1)

/-- The c-metric as `SCM.__init__` actually computes it: at every size the code adds
`SM_k / n_C_k_con` — the spurious-connection count over the connected-triple
count — instead of `CM_k / n_C_k_con`. -/
def cMetricCode (truth est : Graph) : ℚ :=
  (((List.range' 1 (truth.get_num_nodes - 2)).map (fun k =>
      (spuriousCount truth est truth.nodes k : ℚ) /
        (conCount truth truth.nodes k : ℚ))).sum) /
    ((truth.get_num_nodes : ℚ) - 1)

/-- A three-node name list used by the concrete examples. -/
def nodesABC : List String := ["A", "B", "C"]

/-- Example truth graph: a triple is d-connected exactly when the conditioning set
contains `A` (the behaviour of the collider `B → A ← C`). -/
def truth1 : Graph := ⟨nodesABC, fun _ _ S => decide ("A" ∈ S)⟩

/-- Example estimated graph: d-connected exactly when the conditioning set contains
`A` or `B` (two colliders), so it disagrees with `truth1` on the sets containing
`B` but not `A`. -/
def est1 : Graph := ⟨nodesABC, fun _ _ S => decide ("A" ∈ S ∨ "B" ∈ S)⟩

/-- The graph `est1` with its node list stored in a different order — the same
node-name set, exercising the swapped-argument construction. -/
def est1perm : Graph := ⟨["B", "C", "A"], fun _ _ S => decide ("A" ∈ S ∨ "B" ∈ S)⟩

/-- A complete three-node graph: every query answers d-connected (the behaviour of
the triangle DAG `A → B`, `A → C`, `B → C`), so no triple is ever d-separated. -/
def gK3 : Graph := ⟨nodesABC, fun _ _ _ => true⟩

/-- An edgeless three-node graph: every query answers d-separated, so no triple is
ever d-connected. -/
def gSep3 : Graph := ⟨nodesABC, fun _ _ _ => false⟩

/-- A three-node graph with the single edge `A → B` and isolated `C`: the pair
`(A, B)` is d-connected under any conditioning set, every other pair is
d-separated. -/
def gId : Graph :=
  ⟨nodesABC, fun x y _ => decide ((x = "A" ∧ y = "B") ∨ (x = "B" ∧ y = "A"))⟩

/-- A four-node name list used by the concrete examples. -/
def nodesABCD : List String := ["A", "B", "C", "D"]

/-- Four-node truth graph: the pair `{A, B}` is d-connected exactly when the
conditioning set contains `C` (collider behaviour), every other pair is always
d-separated. -/
def truth5 : Graph :=
  ⟨nodesABCD, fun x y S =>
    decide (((x = "A" ∧ y = "B") ∨ (x = "B" ∧ y = "A")) ∧ "C" ∈ S)⟩

/-- Four-node estimated graph answering the exact opposite of `truth5` on every
query. -/
def est5 : Graph :=
  ⟨nodesABCD, fun x y S =>
    !(decide (((x = "A" ∧ y = "B") ∨ (x = "B" ∧ y = "A")) ∧ "C" ∈ S))⟩

/-- A two-node graph (boundary case `N = 2`). -/
def g2 : Graph := ⟨["A", "B"], fun _ _ _ => true⟩

/-- A one-node graph (boundary case `N = 1`). -/
def g1 : Graph := ⟨["A"], fun _ _ _ => false⟩

/-- A graph whose node names `{A, B, D}` differ from `nodesABC` (mismatch case). -/
def estM : Graph := ⟨["A", "B", "D"], fun _ _ _ => false⟩

lemma countP_flatMap {α β : Type} (q : β → Bool) (f : α → List β) :
    ∀ l : List α, (l.flatMap f).countP q = (l.map (fun a => (f a).countP q)).sum := by
  intro l
  induction l with
  | nil => rfl
  | cons a l ih => simp [List.flatMap_cons, List.countP_append, ih]

lemma countTriples_eq_sum (names : List String) (k : ℕ)
    (p : List String → String → String → Bool) :
    countTriples names k p =
      ((names.sublistsLen k).map (fun S =>
        (pairsOutside names S).countP (fun pr => p S pr.1 pr.2))).sum := by
  unfold countTriples triplesK
  rw [countP_flatMap]
  simp only [List.countP_map]
  rfl

lemma foldl_stepTriple (truth est : Graph) :
    ∀ (L : List (List String × String × String)) (a : KAcc),
      L.foldl (fun a t => stepTriple truth est t.1 t.2.1 t.2.2 a) a =
        ⟨a.sm + (L.countP (fun t => !truth.dconn t.2.1 t.2.2 t.1 &&
            est.dconn t.2.1 t.2.2 t.1) : ℕ),
         a.cm + (L.countP (fun t => truth.dconn t.2.1 t.2.2 t.1 &&
            !est.dconn t.2.1 t.2.2 t.1) : ℕ),
         a.scm + (L.countP (fun t => truth.dconn t.2.1 t.2.2 t.1 !=
            est.dconn t.2.1 t.2.2 t.1) : ℕ),
         a.nCon + L.countP (fun t => truth.dconn t.2.1 t.2.2 t.1),
         a.nSep + L.countP (fun t => !truth.dconn t.2.1 t.2.2 t.1)⟩ := by
  intro L
  induction L with
  | nil => intro a; simp
  | cons t L ih =>
    intro a
    rw [List.foldl_cons, ih]
    rcases ht : truth.dconn t.2.1 t.2.2 t.1 <;>
      rcases he : est.dconn t.2.1 t.2.2 t.1 <;>
        simp [stepTriple, ht, he, List.countP_cons] <;> push_cast <;> ring_nf <;> simp

lemma kAcc_sm (truth est : Graph) (names : List String) (k : ℕ) :
    (kAcc truth est names k).sm = (spuriousCount truth est names k : ℚ) := by
  unfold kAcc spuriousCount countTriples
  rw [foldl_stepTriple]
  simp

lemma kAcc_cm (truth est : Graph) (names : List String) (k : ℕ) :
    (kAcc truth est names k).cm = (missedCount truth est names k : ℚ) := by
  unfold kAcc missedCount countTriples
  rw [foldl_stepTriple]
  simp

lemma kAcc_scm (truth est : Graph) (names : List String) (k : ℕ) :
    (kAcc truth est names k).scm = (disagreeCount truth est names k : ℚ) := by
  unfold kAcc disagreeCount countTriples
  rw [foldl_stepTriple]
  simp

lemma kAcc_nCon (truth est : Graph) (names : List String) (k : ℕ) :
    (kAcc truth est names k).nCon = conCount truth names k := by
  unfold kAcc conCount countTriples
  rw [foldl_stepTriple]
  simp

lemma kAcc_nSep (truth est : Graph) (names : List String) (k : ℕ) :
    (kAcc truth est names k).nSep = sepCount truth names k := by
  unfold kAcc sepCount countTriples
  rw [foldl_stepTriple]
  simp

/-- The ratio `SM_k / n_C_k_sep` added to the s-metric running sum at size `k`. -/
def sRatio (truth est : Graph) (names : List String) (k : ℕ) : ℚ :=
  (spuriousCount truth est names k : ℚ) / (sepCount truth names k : ℚ)

/-- The ratio the code adds to the c-metric running sum at size `k`:
`SM_k / n_C_k_con`, reproducing the source's use of the spurious count. -/
def cRatioCode (truth est : Graph) (names : List String) (k : ℕ) : ℚ :=
  (spuriousCount truth est names k : ℚ) / (conCount truth names k : ℚ)

/-- The ratio `SCM_k / (n_C_k_sep + n_C_k_con)` added to the sc-metric running
sum at size `k`. -/
def scRatio (truth est : Graph) (names : List String) (k : ℕ) : ℚ :=
  (disagreeCount truth est names k : ℚ) /
    ((sepCount truth names k : ℚ) + (conCount truth names k : ℚ))

lemma loopKs_ok_elim (truth est : Graph) (names : List String) :
    ∀ (ks : List ℕ) (acc m : SCM), loopKs truth est names acc ks = .ok m →
      (m = ⟨acc.__SM + (ks.map (sRatio truth est names)).sum,
            acc.__CM + (ks.map (cRatioCode truth est names)).sum,
            acc.__SCM + (ks.map (scRatio truth est names)).sum⟩ ∧
        ∀ k ∈ ks, sepCount truth names k ≠ 0 ∧ conCount truth names k ≠ 0) := by
  intro ks
  induction ks with
  | nil =>
    intro acc m h
    simp only [loopKs] at h
    cases h
    simp
  | cons k ks ih =>
    intro acc m h
    simp only [loopKs] at h
    split at h
    · cases h
    · rename_i hden
      obtain ⟨hm, hrest⟩ := ih _ m h
      rw [kAcc_nSep, kAcc_nCon] at hden
      push_neg at hden
      constructor
      · rw [hm]
        simp only [List.map_cons, List.sum_cons, kAcc_sm, kAcc_scm, kAcc_nSep, kAcc_nCon,
          sRatio, cRatioCode, scRatio]
        congr 1 <;> ring
      · intro k' hk'
        rcases List.mem_cons.mp hk' with h' | h'
        · subst h'; exact hden
        · exact hrest k' h'

lemma loopKs_ok_intro (truth est : Graph) (names : List String) :
    ∀ (ks : List ℕ) (acc : SCM),
      (∀ k ∈ ks, sepCount truth names k ≠ 0 ∧ conCount truth names k ≠ 0) →
      loopKs truth est names acc ks =
        .ok ⟨acc.__SM + (ks.map (sRatio truth est names)).sum,
             acc.__CM + (ks.map (cRatioCode truth est names)).sum,
             acc.__SCM + (ks.map (scRatio truth est names)).sum⟩ := by
  intro ks
  induction ks with
  | nil =>
    intro acc _
    simp [loopKs]
  | cons k ks ih =>
    intro acc hden
    have hk := hden k (List.mem_cons_self k ks)
    simp only [loopKs]
    rw [if_neg (by rw [kAcc_nSep, kAcc_nCon]; tauto)]
    rw [ih _ (fun k' hk' => hden k' (List.mem_cons_of_mem k hk'))]
    simp only [List.map_cons, List.sum_cons, kAcc_sm, kAcc_scm, kAcc_nSep, kAcc_nCon,
      sRatio, cRatioCode, scRatio, Except.ok.injEq, SCM.mk.injEq]
    refine ⟨by ring, by ring, by ring⟩

lemma loopKs_error_kind (truth est : Graph) (names : List String) :
    ∀ (ks : List ℕ) (acc : SCM) (e : SCMError),
      loopKs truth est names acc ks = .error e → e = .zeroDivision := by
  intro ks
  induction ks with
  | nil => intro acc e h; simp [loopKs] at h
  | cons k ks ih =>
    intro acc e h
    simp only [loopKs] at h
    split at h
    · cases h; rfl
    · exact ih _ _ h

lemma init_ok_elim (truth est : Graph) (m : SCM)
    (h : SCM.init truth est = .ok m) :
    sameNameSet truth.nodes est.nodes = true ∧ truth.get_num_nodes ≠ 1 ∧
      (∀ k ∈ List.range' 1 (truth.get_num_nodes - 2),
        sepCount truth truth.nodes k ≠ 0 ∧ conCount truth truth.nodes k ≠ 0) ∧
      m = ⟨sMetricSpec truth est, cMetricCode truth est, scMetricSpec truth est⟩ := by
  unfold SCM.init at h
  split at h
  case isFalse => cases h
  case isTrue hname =>
    split at h
    case h_1 => cases h
    case h_2 acc heq =>
      split at h
      · cases h
      · rename_i hN1
        obtain ⟨hacc, hden⟩ := loopKs_ok_elim truth est truth.nodes _ _ _ heq
        cases h
        refine ⟨hname, hN1, hden, ?_⟩
        rw [hacc]
        simp only [sMetricSpec, cMetricCode, scMetricSpec, SCM.mk.injEq, zero_add]
        exact ⟨rfl, rfl, rfl⟩

lemma init_ok_intro (truth est : Graph)
    (hname : sameNameSet truth.nodes est.nodes = true)
    (hN1 : truth.get_num_nodes ≠ 1)
    (hden : ∀ k ∈ List.range' 1 (truth.get_num_nodes - 2),
      sepCount truth truth.nodes k ≠ 0 ∧ conCount truth truth.nodes k ≠ 0) :
    SCM.init truth est =
      .ok ⟨sMetricSpec truth est, cMetricCode truth est, scMetricSpec truth est⟩ := by
  unfold SCM.init
  rw [if_pos hname, loopKs_ok_intro truth est truth.nodes _ _ hden]
  dsimp only
  rw [if_neg hN1]
  simp only [sMetricSpec, cMetricCode, scMetricSpec, Except.ok.injEq, SCM.mk.injEq, zero_add]
  exact ⟨rfl, rfl, rfl⟩

lemma spuriousCount_self (g : Graph) (names : List String) (k : ℕ) :
    spuriousCount g g names k = 0 := by
  unfold spuriousCount countTriples
  rw [List.countP_eq_zero]
  intro t _
  cases g.dconn t.2.1 t.2.2 t.1 <;> simp

lemma disagreeCount_self (g : Graph) (names : List String) (k : ℕ) :
    disagreeCount g g names k = 0 := by
  unfold disagreeCount countTriples
  rw [List.countP_eq_zero]
  intro t _
  simp

lemma init_truth1_est1 : SCM.init truth1 est1 = .ok ⟨1/4, 1/2, 1/6⟩ := by
  rw [init_ok_intro truth1 est1 (by decide) (by decide) (by decide)]
  have e1 : spuriousCount truth1 est1 truth1.nodes 1 = 2 := by decide
  have e2 : sepCount truth1 truth1.nodes 1 = 4 := by decide
  have e3 : conCount truth1 truth1.nodes 1 = 2 := by decide
  have e4 : disagreeCount truth1 est1 truth1.nodes 1 = 2 := by decide
  unfold sMetricSpec cMetricCode scMetricSpec
  rw [show List.range' 1 (truth1.get_num_nodes - 2) = [1] from rfl,
      show truth1.get_num_nodes = 3 from rfl]
  norm_num [e1, e2, e3, e4]

lemma init_gId_gId : SCM.init gId gId = .ok ⟨0, 0, 0⟩ := by
  rw [init_ok_intro gId gId (by decide) (by decide) (by decide)]
  unfold sMetricSpec cMetricCode scMetricSpec
  rw [show List.range' 1 (gId.get_num_nodes - 2) = [1] from rfl,
      show gId.get_num_nodes = 3 from rfl]
  norm_num [spuriousCount_self, disagreeCount_self]

lemma init_truth5_est5 : SCM.init truth5 est5 = .ok ⟨2/3, 16/3, 2/3⟩ := by
  rw [init_ok_intro truth5 est5 (by decide) (by decide) (by decide)]
  have e1 : spuriousCount truth5 est5 truth5.nodes 1 = 22 := by decide
  have e2 : sepCount truth5 truth5.nodes 1 = 22 := by decide
  have e3 : conCount truth5 truth5.nodes 1 = 2 := by decide
  have e4 : disagreeCount truth5 est5 truth5.nodes 1 = 24 := by decide
  have e5 : spuriousCount truth5 est5 truth5.nodes 2 = 10 := by decide
  have e6 : sepCount truth5 truth5.nodes 2 = 10 := by decide
  have e7 : conCount truth5 truth5.nodes 2 = 2 := by decide
  have e8 : disagreeCount truth5 est5 truth5.nodes 2 = 12 := by decide
  unfold sMetricSpec cMetricCode scMetricSpec
  rw [show List.range' 1 (truth5.get_num_nodes - 2) = [1, 2] from rfl,
      show truth5.get_num_nodes = 4 from rfl]
  norm_num [e1, e2, e3, e4, e5, e6, e7, e8]

/-- C1: the c-metric returned by `get_c_metric` does NOT equal the claimed sum of
per-size missed-connection ratios: on `truth1`/`est1` the code stores `1/2` (it
divides the spurious count `SM_k = 2` by `n_C_k_con = 2`), while the claimed
formula — the missed-connection count (here `0`) over the connected-triple
count, summed and divided by `N - 1` — yields `0`.  This exhibits the source
slip `self.__CM = self.__CM + (SM_k / n_C_k_con)`, which the code's own comment
(`Increment c-m if est missing a d-con in truth`) and its dead variable `CM_k`
contradict. -/
theorem c1_c_metric_code_bug :
    SCM.init truth1 est1 = .ok ⟨1/4, 1/2, 1/6⟩ ∧
    missedCount truth1 est1 truth1.nodes 1 = 0 ∧
    conCount truth1 truth1.nodes 1 = 2 ∧
    cMetricSpec truth1 est1 = 0 ∧
    SCM.get_c_metric ⟨1/4, 1/2, 1/6⟩ ≠ cMetricSpec truth1 est1 := by
  have hc : cMetricSpec truth1 est1 = 0 := by
    have e : missedCount truth1 est1 truth1.nodes 1 = 0 := by decide
    unfold cMetricSpec
    rw [show List.range' 1 (truth1.get_num_nodes - 2) = [1] from rfl,
        show truth1.get_num_nodes = 3 from rfl]
    norm_num [e]
  refine ⟨init_truth1_est1, by decide, by decide, hc, ?_⟩
  rw [hc]
  norm_num [SCM.get_c_metric]

/-- C2: whenever construction succeeds on graphs with at least three nodes, the
value returned by `get_s_metric` equals the sum over sizes `k = 1 .. N-2` of
(size-`k` spurious-connection count / size-`k` separated-triple count), divided
by `N - 1`. -/
theorem c2_s_metric_matches_spec (truth est : Graph) (m : SCM)
    (hN : 3 ≤ truth.get_num_nodes) (h : SCM.init truth est = .ok m) :
    m.get_s_metric = sMetricSpec truth est := by
  obtain ⟨-, -, -, rfl⟩ := init_ok_elim truth est m h
  rfl

/-- Witness for C2 at the concrete pair `truth1`, `est1`. -/
theorem c2_s_metric_matches_spec_witness :
    3 ≤ truth1.get_num_nodes ∧ SCM.init truth1 est1 = .ok ⟨1/4, 1/2, 1/6⟩ ∧
    SCM.get_s_metric ⟨1/4, 1/2, 1/6⟩ = sMetricSpec truth1 est1 :=
  ⟨by decide, init_truth1_est1,
    c2_s_metric_matches_spec truth1 est1 ⟨1/4, 1/2, 1/6⟩ (by decide) init_truth1_est1⟩

/-- C4, counterexample: constructing the engine twice from the complete graph
`gK3` (a graph structurally equal to itself, three nodes) does not yield zero
metrics — it fails with `ZeroDivisionError`, because at size `k = 1` every
triple is d-connected and the code divides `SM_k` by `n_C_k_sep = 0`. -/
theorem c4_identical_complete_graph_fails :
    SCM.init gK3 gK3 = Except.error SCMError.zeroDivision := rfl

/-- C4, amended: whenever construction with the same graph as both `truth` and
`est` succeeds, all three metrics are `0`. -/
theorem c4_identical_graphs_zero (g : Graph) (m : SCM)
    (h : SCM.init g g = .ok m) :
    m.get_s_metric = 0 ∧ m.get_c_metric = 0 ∧ m.get_sc_metric = 0 := by
  obtain ⟨-, -, -, rfl⟩ := init_ok_elim g g m h
  refine ⟨?_, ?_, ?_⟩ <;>
    simp [SCM.get_s_metric, SCM.get_c_metric, SCM.get_sc_metric, sMetricSpec,
      cMetricCode, scMetricSpec, spuriousCount_self, disagreeCount_self]

/-- Witness for C4 (amended) at the concrete graph `gId`, on which self-paired
construction succeeds. -/
theorem c4_identical_graphs_zero_witness :
    SCM.init gId gId = .ok ⟨0, 0, 0⟩ ∧
    SCM.get_s_metric ⟨0, 0, 0⟩ = 0 ∧ SCM.get_c_metric ⟨0, 0, 0⟩ = 0 ∧
    SCM.get_sc_metric ⟨0, 0, 0⟩ = 0 :=
  ⟨init_gId_gId,
    (c4_identical_graphs_zero gId ⟨0, 0, 0⟩ init_gId_gId).1,
    (c4_identical_graphs_zero gId ⟨0, 0, 0⟩ init_gId_gId).2.1,
    (c4_identical_graphs_zero gId ⟨0, 0, 0⟩ init_gId_gId).2.2⟩

/-- C6: whenever the two graphs' node-name sets differ, construction fails with
`GraphMismatch` — for every d-connection oracle (the statement quantifies over
both graphs' `dconn` fields, so no query influences the outcome and no metric
state is produced). -/
theorem c6_mismatch_graph_mismatch (truth est : Graph)
    (h : sameNameSet truth.nodes est.nodes = false) :
    SCM.init truth est = .error .graphMismatch := by
  simp [SCM.init, h]

/-- Witness for C6 at the literal example of the spec: node names `{A, B, C}`
versus `{A, B, D}`. -/
theorem c6_mismatch_graph_mismatch_witness :
    sameNameSet gSep3.nodes estM.nodes = false ∧
    SCM.init gSep3 estM = .error .graphMismatch :=
  ⟨by decide, c6_mismatch_graph_mismatch gSep3 estM (by decide)⟩

/-- C7: the single zero-denominator policy of the code — whenever any size `k` in
range has a zero separated-triple or connected-triple count, construction fails
with `ZeroDivisionError`, uniformly; consequently the accessors of a constructed
engine can never expose a value computed from a zero denominator (no NaN/Inf). -/
theorem c7_zero_denominator_uniform_failure (truth est : Graph) (k : ℕ)
    (hname : sameNameSet truth.nodes est.nodes = true)
    (hk : k ∈ List.range' 1 (truth.get_num_nodes - 2))
    (hbad : sepCount truth truth.nodes k = 0 ∨ conCount truth truth.nodes k = 0) :
    SCM.init truth est = .error .zeroDivision := by
  unfold SCM.init
  rw [if_pos hname]
  cases hres : loopKs truth est truth.nodes ⟨0, 0, 0⟩
      (List.range' 1 (truth.get_num_nodes - 2)) with
  | error e =>
    have he := loopKs_error_kind truth est truth.nodes _ _ _ hres
    subst he
    rfl
  | ok acc =>
    exfalso
    obtain ⟨-, hden⟩ := loopKs_ok_elim truth est truth.nodes _ _ _ hres
    rcases hbad with hb | hb
    · exact (hden k hk).1 hb
    · exact (hden k hk).2 hb

/-- Witness for C7 at the edgeless graph `gSep3` paired with itself: at `k = 1`
no triple is d-connected, so `n_C_k_con = 0` and construction fails. -/
theorem c7_zero_denominator_uniform_failure_witness :
    sameNameSet gSep3.nodes gSep3.nodes = true ∧
    1 ∈ List.range' 1 (gSep3.get_num_nodes - 2) ∧
    conCount gSep3 gSep3.nodes 1 = 0 ∧
    SCM.init gSep3 gSep3 = .error .zeroDivision :=
  ⟨by decide, by decide, by decide,
    c7_zero_denominator_uniform_failure gSep3 gSep3 1 (by decide) (by decide)
      (Or.inr (by decide))⟩

/-- C8: for graphs with exactly two nodes the subset-size loop runs zero times
(`range(1, 1)` is empty), construction completes, and all three stored metrics
are the defined value `0` (in particular finite — no crash, no NaN/Inf). -/
theorem c8_two_nodes_defined (truth est : Graph)
    (hname : sameNameSet truth.nodes est.nodes = true)
    (h2 : truth.get_num_nodes = 2) :
    SCM.init truth est = .ok ⟨0, 0, 0⟩ := by
  unfold SCM.init
  rw [if_pos hname, h2]
  norm_num [loopKs]

/-- Witness for C8 at the two-node graph `g2`. -/
theorem c8_two_nodes_defined_witness :
    sameNameSet g2.nodes g2.nodes = true ∧ g2.get_num_nodes = 2 ∧
    SCM.init g2 g2 = .ok ⟨0, 0, 0⟩ :=
  ⟨by decide, rfl, c8_two_nodes_defined g2 g2 (by decide) rfl⟩

/-- C10: for graphs with exactly one node the subset-size loop runs zero times
and finalization divides the running sums by `N - 1 = 0`, so construction fails
with `ZeroDivisionError` and no engine state or metric values are produced. -/
theorem c10_one_node_zero_division (truth est : Graph)
    (hname : sameNameSet truth.nodes est.nodes = true)
    (h1 : truth.get_num_nodes = 1) :
    SCM.init truth est = .error .zeroDivision := by
  unfold SCM.init
  rw [if_pos hname, h1]
  norm_num [loopKs]

/-- Witness for C10 at the one-node graph `g1`. -/
theorem c10_one_node_zero_division_witness :
    sameNameSet g1.nodes g1.nodes = true ∧ g1.get_num_nodes = 1 ∧
    SCM.init g1 g1 = .error .zeroDivision :=
  ⟨by decide, rfl, c10_one_node_zero_division g1 g1 (by decide) rfl⟩

/-- C5: on `truth5`/`est5` every per-size denominator is non-zero, yet the value
returned by `get_c_metric` is `16/3 > 1`: because the code divides the spurious
count by the connected-triple count, the c-metric is not confined to `[0, 1]`. -/
theorem c5_c_metric_out_of_range :
    SCM.init truth5 est5 = .ok ⟨2/3, 16/3, 2/3⟩ ∧
    sepCount truth5 truth5.nodes 1 ≠ 0 ∧ conCount truth5 truth5.nodes 1 ≠ 0 ∧
    sepCount truth5 truth5.nodes 2 ≠ 0 ∧ conCount truth5 truth5.nodes 2 ≠ 0 ∧
    ¬(SCM.get_c_metric ⟨2/3, 16/3, 2/3⟩ ≤ 1) := by
  refine ⟨init_truth5_est5, by decide, by decide, by decide, by decide, ?_⟩
  norm_num [SCM.get_c_metric]

lemma length_flatMap {α β : Type} (f : α → List β) :
    ∀ l : List α, (l.flatMap f).length = (l.map (fun a => (f a).length)).sum := by
  intro l
  induction l with
  | nil => rfl
  | cons a l ih => simp [List.flatMap_cons, ih]

lemma countP_not_add {α : Type} (p : α → Bool) :
    ∀ l : List α, l.countP p + l.countP (fun a => !p a) = l.length := by
  intro l
  induction l with
  | nil => rfl
  | cons a l ih =>
    rcases h : p a <;>
      simp [List.countP_cons, h, ← ih] <;> omega

lemma sum_map_of_const {α : Type} (L : List α) (f : α → ℕ) (c : ℕ)
    (h : ∀ a ∈ L, f a = c) : (L.map f).sum = L.length * c := by
  induction L with
  | nil => simp
  | cons a L ih =>
    rw [List.map_cons, List.sum_cons, h a (List.mem_cons_self a L),
      ih (fun b hb => h b (List.mem_cons_of_mem a hb)), List.length_cons]
    ring

lemma countP_eq_one_of_nodup_mem {l : List String} {x : String}
    (hnd : l.Nodup) (hx : x ∈ l) :
    l.countP (fun y => decide (y = x)) = 1 := by
  induction l with
  | nil => cases hx
  | cons a l ih =>
    rcases List.nodup_cons.mp hnd with ⟨ha, hnd'⟩
    rcases List.mem_cons.mp hx with h | h
    · subst h
      have hz : l.countP (fun y => decide (y = x)) = 0 := by
        rw [List.countP_eq_zero]
        intro y hy
        simp only [decide_eq_true_eq]
        intro he
        exact ha (he ▸ hy)
      rw [List.countP_cons, hz]
      simp
    · rw [List.countP_cons, ih hnd' h]
      have : a ≠ x := fun he => ha (he ▸ h)
      simp [this]

lemma filter_ne_length {l : List String} {x : String} (hnd : l.Nodup) (hx : x ∈ l) :
    (l.filter (fun y => decide (¬ y = x))).length = l.length - 1 := by
  have h1 := countP_not_add (fun y => decide (y = x)) l
  have h2 : (fun y => !(decide (y = x))) = (fun y => decide (¬ y = x)) := by
    funext y
    simp [decide_not]
  rw [h2] at h1
  rw [← List.countP_eq_length_filter, ← h1, countP_eq_one_of_nodup_mem hnd hx]
  omega

lemma countP_mem_eq_length {S names : List String}
    (h : S.Sublist names) (hnd : names.Nodup) :
    names.countP (fun x => decide (x ∈ S)) = S.length := by
  induction h with
  | slnil => rfl
  | @cons S' l a hsub ih =>
    rcases List.nodup_cons.mp hnd with ⟨ha, hnd'⟩
    rw [List.countP_cons, ih hnd']
    have : ¬ a ∈ S' := fun hmem => ha (hsub.subset hmem)
    simp [this]
  | @cons₂ S' l a hsub ih =>
    rcases List.nodup_cons.mp hnd with ⟨ha, hnd'⟩
    rw [List.countP_cons]
    have hcongr : l.countP (fun x => decide (x ∈ a :: S')) =
        l.countP (fun x => decide (x ∈ S')) := by
      apply List.countP_congr
      intro x hx
      simp only [decide_eq_true_eq, List.mem_cons]
      constructor
      · rintro (h | h)
        · exact absurd (h ▸ hx) ha
        · exact h
      · exact Or.inr
    rw [hcongr, ih hnd']
    simp

lemma pairsOutside_length {names S : List String} (hnd : names.Nodup)
    (hS : S.Sublist names) :
    (pairsOutside names S).length =
      (names.length - S.length) * (names.length - S.length - 1) := by
  unfold pairsOutside
  rw [length_flatMap]
  have hlen : (names.filter (fun x => decide (¬ x ∈ S))).length =
      names.length - S.length := by
    have h1 := countP_not_add (fun x => decide (x ∈ S)) names
    have h2 : (fun x => !(decide (x ∈ S))) = (fun x => decide (¬ x ∈ S)) := by
      funext x
      simp [decide_not]
    rw [h2] at h1
    rw [← List.countP_eq_length_filter, ← countP_mem_eq_length hS hnd, ← h1]
    omega
  rw [sum_map_of_const _ _ ((names.length - S.length) - 1) ?hc, hlen]
  case hc =>
    intro x hx
    rw [List.length_map, filter_ne_length (hnd.filter _) hx, hlen]

lemma triplesK_length (names : List String) (k : ℕ) (hnd : names.Nodup) :
    (triplesK names k).length =
      Nat.choose names.length k * (names.length - k) * (names.length - k - 1) := by
  unfold triplesK
  rw [length_flatMap,
    sum_map_of_const _ _ ((names.length - k) * (names.length - k - 1)) ?hc,
    List.length_sublistsLen]
  · ring
  case hc =>
    intro S hS
    obtain ⟨hsub, hlen⟩ := List.mem_sublistsLen.mp hS
    rw [List.length_map, pairsOutside_length hnd hsub, hlen]

lemma con_add_sep (g : Graph) (names : List String) (k : ℕ) :
    conCount g names k + sepCount g names k = (triplesK names k).length := by
  unfold conCount sepCount countTriples
  exact countP_not_add _ _

/-- C9: at every subset size `k` in range, the enumeration visits each length-`k`
subset of the (duplicate-free) node-name list exactly once and each ordered pair
of distinct remaining names exactly once, so `n_C_k_con + n_C_k_sep` — the two
per-size denominators — add up to `C(N, k) * (N - k) * (N - k - 1)`. -/
theorem c9_enumeration_partition (truth est : Graph) (k : ℕ)
    (hnd : truth.nodes.Nodup)
    (hk : k ∈ List.range' 1 (truth.get_num_nodes - 2)) :
    (kAcc truth est truth.nodes k).nCon + (kAcc truth est truth.nodes k).nSep =
      Nat.choose truth.get_num_nodes k * (truth.get_num_nodes - k) *
        (truth.get_num_nodes - k - 1) := by
  rw [kAcc_nCon, kAcc_nSep, con_add_sep, triplesK_length truth.nodes k hnd]
  rfl

lemma pairsOutside_perm_left {l1 l2 : List String} (h : l1.Perm l2) (S : List String) :
    (pairsOutside l1 S).Perm (pairsOutside l2 S) := by
  unfold pairsOutside
  refine ((h.filter _).flatMap_right _).trans ?_
  apply List.Perm.flatMap_left
  intro x _
  exact ((h.filter _).filter _).map _

lemma pairsOutside_congr_S {l S S' : List String} (h : S.Perm S') :
    pairsOutside l S = pairsOutside l S' := by
  unfold pairsOutside
  have hf : (fun y => decide (¬ y ∈ S)) = (fun y => decide (¬ y ∈ S')) := by
    funext y
    simp [h.mem_iff]
  rw [hf]

lemma sum_map_sublistsLen_perm (f : List String → ℕ)
    (hf : ∀ S S', S.Perm S' → f S = f S')
    {l1 l2 : List String} (h : l1.Perm l2) (k : ℕ) :
    ((l1.sublistsLen k).map f).sum = ((l2.sublistsLen k).map f).sum := by
  have hperm := @Multiset.powersetCardAux_perm String k l1 l2 h
  rw [Multiset.powersetCardAux_eq_map_coe, Multiset.powersetCardAux_eq_map_coe] at hperm
  have hmap := (hperm.map (Quotient.lift f (fun a b hab => hf a b hab))).sum_eq
  rw [List.map_map, List.map_map] at hmap
  exact hmap

lemma countTriples_perm (p : List String → String → String → Bool)
    (hp : ∀ S S' x y, S.Perm S' → p S x y = p S' x y)
    {l1 l2 : List String} (h : l1.Perm l2) (k : ℕ) :
    countTriples l1 k p = countTriples l2 k p := by
  rw [countTriples_eq_sum, countTriples_eq_sum]
  rw [List.map_congr_left (fun S _ =>
    (pairsOutside_perm_left h S).countP_eq (fun pr => p S pr.1 pr.2))]
  apply sum_map_sublistsLen_perm _ _ h
  intro S S' hss
  rw [pairsOutside_congr_S hss]
  apply List.countP_congr
  intro pr _
  simp [hp S S' pr.1 pr.2 hss]

lemma triplesK_length_perm {l1 l2 : List String} (h : l1.Perm l2) (k : ℕ) :
    (triplesK l1 k).length = (triplesK l2 k).length := by
  have hc := countTriples_perm (fun _ _ _ => true) (fun _ _ _ _ _ => rfl) h k
  unfold countTriples at hc
  simpa using hc

/-- C3: swapping the roles of the two graphs leaves the sc-metric unchanged.
Hypotheses: duplicate-free node lists (dictionary keys) and conditioning-set
order-independence of each graph's d-connection predicate (the `GraphQuery`
contract passes the conditioning set as a set). -/
theorem c3_sc_metric_swap_invariant (truth est : Graph) (m1 m2 : SCM)
    (hnd1 : truth.nodes.Nodup) (hnd2 : est.nodes.Nodup)
    (hset1 : ∀ (x y : String) (S S' : List String), S.Perm S' →
      truth.dconn x y S = truth.dconn x y S')
    (hset2 : ∀ (x y : String) (S S' : List String), S.Perm S' →
      est.dconn x y S = est.dconn x y S')
    (h1 : SCM.init truth est = .ok m1) (h2 : SCM.init est truth = .ok m2) :
    m1.get_sc_metric = m2.get_sc_metric := by
  obtain ⟨hname, -, -, rfl⟩ := init_ok_elim truth est m1 h1
  obtain ⟨-, -, -, rfl⟩ := init_ok_elim est truth m2 h2
  show scMetricSpec truth est = scMetricSpec est truth
  have hmem : ∀ a, a ∈ truth.nodes ↔ a ∈ est.nodes := by
    unfold sameNameSet at hname
    rw [Bool.and_eq_true, List.all_eq_true, List.all_eq_true] at hname
    intro a
    constructor
    · intro ha
      simpa using hname.1 a ha
    · intro ha
      simpa using hname.2 a ha
  have hp : truth.nodes.Perm est.nodes := (List.perm_ext_iff_of_nodup hnd1 hnd2).mpr hmem
  have hN : truth.get_num_nodes = est.get_num_nodes := hp.length_eq
  unfold scMetricSpec
  rw [← hN]
  congr 1
  apply congrArg List.sum
  apply List.map_congr_left
  intro k _
  have hdis : disagreeCount truth est truth.nodes k =
      disagreeCount est truth est.nodes k := by
    unfold disagreeCount
    rw [countTriples_perm (fun S x y => truth.dconn x y S != est.dconn x y S)
      (fun S S' x y hss => by
        simp only [hset1 x y S S' hss, hset2 x y S S' hss]) hp k]
    unfold countTriples
    apply List.countP_congr
    intro t _
    cases htc : truth.dconn t.2.1 t.2.2 t.1 <;>
      cases hec : est.dconn t.2.1 t.2.2 t.1 <;> simp [htc, hec]
  have htot : sepCount truth truth.nodes k + conCount truth truth.nodes k =
      sepCount est est.nodes k + conCount est est.nodes k := by
    have t1 := con_add_sep truth truth.nodes k
    have t2 := con_add_sep est est.nodes k
    have t3 := triplesK_length_perm hp k
    omega
  rw [hdis]
  congr 1
  have hcast := congrArg (fun n : ℕ => (n : ℚ)) htot
  push_cast at hcast
  exact hcast

lemma truth1_setlike : ∀ (x y : String) (S S' : List String), S.Perm S' →
    truth1.dconn x y S = truth1.dconn x y S' := by
  intro x y S S' h
  simp [truth1, h.mem_iff]

lemma est1perm_setlike : ∀ (x y : String) (S S' : List String), S.Perm S' →
    est1perm.dconn x y S = est1perm.dconn x y S' := by
  intro x y S S' h
  simp [est1perm, h.mem_iff]

lemma init_truth1_est1perm : SCM.init truth1 est1perm = .ok ⟨1/4, 1/2, 1/6⟩ := by
  rw [init_ok_intro truth1 est1perm (by decide) (by decide) (by decide)]
  have e1 : spuriousCount truth1 est1perm truth1.nodes 1 = 2 := by decide
  have e2 : sepCount truth1 truth1.nodes 1 = 4 := by decide
  have e3 : conCount truth1 truth1.nodes 1 = 2 := by decide
  have e4 : disagreeCount truth1 est1perm truth1.nodes 1 = 2 := by decide
  unfold sMetricSpec cMetricCode scMetricSpec
  rw [show List.range' 1 (truth1.get_num_nodes - 2) = [1] from rfl,
      show truth1.get_num_nodes = 3 from rfl]
  norm_num [e1, e2, e3, e4]

lemma init_est1perm_truth1 : SCM.init est1perm truth1 = .ok ⟨0, 0, 1/6⟩ := by
  rw [init_ok_intro est1perm truth1 (by decide) (by decide) (by decide)]
  have e1 : spuriousCount est1perm truth1 est1perm.nodes 1 = 0 := by decide
  have e2 : sepCount est1perm est1perm.nodes 1 = 2 := by decide
  have e3 : conCount est1perm est1perm.nodes 1 = 4 := by decide
  have e4 : disagreeCount est1perm truth1 est1perm.nodes 1 = 2 := by decide
  unfold sMetricSpec cMetricCode scMetricSpec
  rw [show List.range' 1 (est1perm.get_num_nodes - 2) = [1] from rfl,
      show est1perm.get_num_nodes = 3 from rfl]
  norm_num [e1, e2, e3, e4]

/-- Witness for C3 at the concrete pair `truth1`, `est1perm` (same name set,
different storage order): both construction orders succeed, the s- and c-metrics
differ across the swap (`1/4`/`1/2` versus `0`/`0`) but the sc-metric is `1/6`
in both orders. -/
theorem c3_sc_metric_swap_invariant_witness :
    truth1.nodes.Nodup ∧ est1perm.nodes.Nodup ∧
    SCM.init truth1 est1perm = .ok ⟨1/4, 1/2, 1/6⟩ ∧
    SCM.init est1perm truth1 = .ok ⟨0, 0, 1/6⟩ ∧
    SCM.get_sc_metric ⟨1/4, 1/2, 1/6⟩ = SCM.get_sc_metric ⟨0, 0, 1/6⟩ :=
  ⟨by decide, by decide, init_truth1_est1perm, init_est1perm_truth1,
    c3_sc_metric_swap_invariant truth1 est1perm ⟨1/4, 1/2, 1/6⟩ ⟨0, 0, 1/6⟩
      (by decide) (by decide) truth1_setlike est1perm_setlike
      init_truth1_est1perm init_est1perm_truth1⟩

/-- Witness for C9 at `truth1`/`est1`, size `k = 1`:
`2 + 4 = C(3,1) * 2 * 1 = 6`. -/
theorem c9_enumeration_partition_witness :
    truth1.nodes.Nodup ∧ 1 ∈ List.range' 1 (truth1.get_num_nodes - 2) ∧
    (kAcc truth1 est1 truth1.nodes 1).nCon + (kAcc truth1 est1 truth1.nodes 1).nSep =
      Nat.choose truth1.get_num_nodes 1 * (truth1.get_num_nodes - 1) *
        (truth1.get_num_nodes - 1 - 1) :=
  ⟨by decide, by decide, c9_enumeration_partition truth1 est1 1 (by decide) (by decide)⟩

end CausalSCM
